import Mathlib

/-!
Verification of the AkshareProject agent orchestration core.

This file gives a shallow embedding, in Lean 4, of the orchestration core of
the repository: the tool executor (`execute_single_tool`), the single-agent
conversation loop (`chat_with_context` in `agent_app.py`), the message
persistence layer (`save_message` / `load_context`), the multi-agent pipeline
(`multi-Agent.py`), the task-context store (`utils/context_store.py`) and the
macro-indicator tool (`query_macro_data` in `akshare_tools.py`).

Python values that flow through `json.dumps` / `json.loads` are modelled by
the inductive type `PyObj` (floats are not modelled; none of the verified
properties concerns float payloads).  `json.dumps(·, ensure_ascii=False)` with
the default separators is modelled by `json_dumps`, and `json.loads` by the
executable parser `json_loads`; the round trip `json_loads (json_dumps v) =
some v` is proved below and used for the context-store theorems.

External collaborators (the Ollama chat endpoint, the AkShare network
fetches, matplotlib) are modelled as explicit inputs: the model is an oracle
giving the response message of each chat call, and a `World` structure
carries the outcomes of the external data fetches.
-/

/-- Left curly brace character, written via its code point. -/
def lbrace : Char := Char.ofNat 123

/-- Right curly brace character, written via its code point. -/
def rbrace : Char := Char.ofNat 125

/-- JSON-representable Python values: `None`, `bool`, `int`, `str`, `list`,
`dict` (with string keys, in insertion order).  Floats are out of scope. -/
inductive PyObj : Type where
  | pnone : PyObj
  | pbool (b : Bool) : PyObj
  | pint (n : Int) : PyObj
  | pstr (s : String) : PyObj
  | plist (xs : List PyObj) : PyObj
  | pdict (kvs : List (String × PyObj)) : PyObj

/-- Decimal digit character for a value `n < 10`. -/
def digitChar (n : Nat) : Char := Char.ofNat (48 + n)

/-- Lower-case hexadecimal digit character for a value `n < 16`, as Python's
`json` module emits in `\u00xx` escapes. -/
def hexChar (n : Nat) : Char := if n < 10 then Char.ofNat (48 + n) else Char.ofNat (87 + n)

/-- Decimal representation of a natural number, most significant digit first;
`fuel` bounds the recursion depth (`n < fuel` suffices). -/
def repDecimalAux : Nat → Nat → List Char
  | 0, _ => []
  | fuel + 1, n => if n < 10 then [digitChar n] else repDecimalAux fuel (n / 10) ++ [digitChar (n % 10)]

/-- Decimal representation of a natural number (what `str(n)` / `json.dumps(n)`
prints for a nonnegative `int`). -/
def repDecimal (n : Nat) : List Char := repDecimalAux (n + 1) n

/-- Escape of one character inside a JSON string literal, exactly as
`json.dumps(·, ensure_ascii=False)` emits it: `"` and `\` are backslash
escaped, the common control characters use their short escapes, every other
control character uses `\u00xx`, and all remaining characters (including
non-ASCII) pass through unchanged. -/
def escapeChar (c : Char) : List Char :=
  if c = '"' then ['\\', '"']
  else if c = '\\' then ['\\', '\\']
  else if c = '\n' then ['\\', 'n']
  else if c = '\t' then ['\\', 't']
  else if c = '\r' then ['\\', 'r']
  else if c = Char.ofNat 8 then ['\\', 'b']
  else if c = Char.ofNat 12 then ['\\', 'f']
  else if c.toNat < 32 then ['\\', 'u', '0', '0', hexChar (c.toNat / 16), hexChar (c.toNat % 16)]
  else [c]

/-- Escape of a character list for a JSON string literal. -/
def escList (cs : List Char) : List Char := cs.foldr (fun c acc => escapeChar c ++ acc) []

/-- Escape of a string for a JSON string literal. -/
def escapeString (s : String) : List Char := escList s.data

mutual

/-- Serialization of a `PyObj`, as `json.dumps(v, ensure_ascii=False)` with the
default separators `", "` and `": "`. -/
def dumpsVal : PyObj → List Char
  | .pnone => ['n', 'u', 'l', 'l']
  | .pbool true => ['t', 'r', 'u', 'e']
  | .pbool false => ['f', 'a', 'l', 's', 'e']
  | .pint n => if n < 0 then '-' :: repDecimal n.natAbs else repDecimal n.toNat
  | .pstr s => '"' :: (escapeString s ++ ['"'])
  | .plist xs => '[' :: (dumpsItems xs ++ [']'])
  | .pdict kvs => lbrace :: (dumpsMembers kvs ++ [rbrace])

/-- Serialization of the items of a JSON array, separated by `", "`. -/
def dumpsItems : List PyObj → List Char
  | [] => []
  | [x] => dumpsVal x
  | x :: y :: rest => dumpsVal x ++ (',' :: ' ' :: dumpsItems (y :: rest))

/-- Serialization of the members of a JSON object, `"key": value` pairs
separated by `", "`. -/
def dumpsMembers : List (String × PyObj) → List Char
  | [] => []
  | [(k, v)] => '"' :: (escapeString k ++ ('"' :: ':' :: ' ' :: dumpsVal v))
  | (k, v) :: m :: rest =>
      ('"' :: (escapeString k ++ ('"' :: ':' :: ' ' :: dumpsVal v))) ++ (',' :: ' ' :: dumpsMembers (m :: rest))

end

/-- Model of `json.dumps(v, ensure_ascii=False)`. -/
def json_dumps (v : PyObj) : String := String.mk (dumpsVal v)

/-- Whether a character counts as JSON whitespace. -/
def isWsChar (c : Char) : Bool := c == ' ' || c == '\n' || c == '\t' || c == '\r'

/-- Drop leading JSON whitespace. -/
def skipWs : List Char → List Char
  | [] => []
  | c :: rest => if isWsChar c then skipWs rest else c :: rest

/-- Value of a decimal digit character. -/
def digitVal (c : Char) : Nat := c.toNat - 48

/-- Split a character list into its leading run of decimal digits and the
remainder. -/
def takeDigits : List Char → (List Char × List Char)
  | [] => ([], [])
  | c :: rest => if c.isDigit then ((takeDigits rest).1.cons c, (takeDigits rest).2) else ([], c :: rest)

/-- Numeric value of a list of decimal digit characters. -/
def digitsToNat (ds : List Char) : Nat := ds.foldl (fun acc c => acc * 10 + digitVal c) 0

/-- Value of a hexadecimal digit character, if it is one. -/
def hexVal (c : Char) : Option Nat :=
  if 48 ≤ c.toNat ∧ c.toNat ≤ 57 then some (c.toNat - 48)
  else if 97 ≤ c.toNat ∧ c.toNat ≤ 102 then some (c.toNat - 87)
  else if 65 ≤ c.toNat ∧ c.toNat ≤ 70 then some (c.toNat - 55)
  else none

/-- Unescape of a single-character JSON escape (`\"`, `\\`, `\/`, `\n`, `\t`,
`\r`, `\b`, `\f`). -/
def unescapeChar (e : Char) : Option Char :=
  if e = '"' then some '"'
  else if e = '\\' then some '\\'
  else if e = '/' then some '/'
  else if e = 'n' then some '\n'
  else if e = 't' then some '\t'
  else if e = 'r' then some '\r'
  else if e = 'b' then some (Char.ofNat 8)
  else if e = 'f' then some (Char.ofNat 12)
  else none

/-- Parse the body of a JSON string literal (the opening quote already
consumed), returning the decoded characters and the input after the closing
quote. -/
def parseStringBody : List Char → Option (List Char × List Char)
  | [] => none
  | c :: rest =>
    if c = '"' then some ([], rest)
    else if c = '\\' then
      match rest with
      | [] => none
      | e :: rest2 =>
        if e = 'u' then
          match rest2 with
          | h1 :: h2 :: h3 :: h4 :: rest3 =>
            match hexVal h1, hexVal h2, hexVal h3, hexVal h4 with
            | some a, some b, some c3, some d =>
                (parseStringBody rest3).map (fun p => (Char.ofNat (((a * 16 + b) * 16 + c3) * 16 + d) :: p.1, p.2))
            | _, _, _, _ => none
          | _ => none
        else
          match unescapeChar e with
          | some c2 => (parseStringBody rest2).map (fun p => (c2 :: p.1, p.2))
          | none => none
    else (parseStringBody rest).map (fun p => (c :: p.1, p.2))

mutual

/-- Parse one JSON value; `fuel` bounds the nesting depth. -/
def parseVal : Nat → List Char → Option (PyObj × List Char)
  | 0, _ => none
  | fuel + 1, cs =>
    match skipWs cs with
    | [] => none
    | c :: rest =>
      if c = '"' then (parseStringBody rest).map (fun p => (.pstr (String.mk p.1), p.2))
      else if c = '[' then
        match skipWs rest with
        | [] => none
        | c2 :: rest2 =>
          if c2 = ']' then some (.plist [], rest2)
          else (parseItems fuel (c2 :: rest2)).map (fun p => (.plist p.1, p.2))
      else if c = lbrace then
        match skipWs rest with
        | [] => none
        | c2 :: rest2 =>
          if c2 = rbrace then some (.pdict [], rest2)
          else (parseMembers fuel (c2 :: rest2)).map (fun p => (.pdict p.1, p.2))
      else if c = '-' then
        match takeDigits rest with
        | ([], _) => none
        | (ds, rest2) => some (.pint (-(digitsToNat ds : Int)), rest2)
      else if c.isDigit then
        match takeDigits (c :: rest) with
        | (ds, rest2) => some (.pint ((digitsToNat ds : Int)), rest2)
      else
        match c :: rest with
        | 'n' :: 'u' :: 'l' :: 'l' :: rest2 => some (.pnone, rest2)
        | 't' :: 'r' :: 'u' :: 'e' :: rest2 => some (.pbool true, rest2)
        | 'f' :: 'a' :: 'l' :: 's' :: 'e' :: rest2 => some (.pbool false, rest2)
        | _ => none

/-- Parse the non-empty item list of a JSON array, up to and including the
closing bracket. -/
def parseItems : Nat → List Char → Option (List PyObj × List Char)
  | 0, _ => none
  | fuel + 1, cs =>
    (parseVal fuel cs).bind (fun p =>
      match skipWs p.2 with
      | [] => none
      | c :: rest2 =>
        if c = ',' then (parseItems fuel rest2).map (fun q => (p.1 :: q.1, q.2))
        else if c = ']' then some ([p.1], rest2)
        else none)

/-- Parse the non-empty member list of a JSON object, up to and including the
closing brace. -/
def parseMembers : Nat → List Char → Option (List (String × PyObj) × List Char)
  | 0, _ => none
  | fuel + 1, cs =>
    match skipWs cs with
    | [] => none
    | c :: rest =>
      if c = '"' then
        (parseStringBody rest).bind (fun kp =>
          match skipWs kp.2 with
          | [] => none
          | c2 :: rest2 =>
            if c2 = ':' then
              (parseVal fuel rest2).bind (fun vp =>
                match skipWs vp.2 with
                | [] => none
                | c3 :: rest3 =>
                  if c3 = ',' then
                    (parseMembers fuel rest3).map (fun q => ((String.mk kp.1, vp.1) :: q.1, q.2))
                  else if c3 = rbrace then some ([(String.mk kp.1, vp.1)], rest3)
                  else none)
            else none)
      else none

end

/-- Model of `json.loads`: parse one JSON value and require only whitespace to
remain. -/
def json_loads (s : String) : Option PyObj :=
  match parseVal (s.data.length + 1) s.data with
  | some (v, rest) => if skipWs rest = [] then some v else none
  | none => none

/-! ### Round trip of `json_loads` after `json_dumps` -/

/-- Rebuilding a string from its character data is the identity. -/
theorem mk_data (s : String) : String.mk s.data = s := by cases s; rfl

/-- Characters produced by `digitChar` on digit values are decimal digits. -/
theorem digitChar_isDigit : ∀ n < 10, (digitChar n).isDigit = true := by decide

/-- `digitVal` inverts `digitChar` on digit values. -/
theorem digitVal_digitChar : ∀ n < 10, digitVal (digitChar n) = n := by decide

/-- `hexVal` inverts `hexChar` on hexadecimal digit values. -/
theorem hexVal_hexChar : ∀ n < 16, hexVal (hexChar n) = some n := by decide

/-- Appending one digit multiplies the accumulated value by ten. -/
theorem digitsToNat_append (l : List Char) (d : Char) :
    digitsToNat (l ++ [d]) = 10 * digitsToNat l + digitVal d := by
  simp [digitsToNat, List.foldl_append, Nat.mul_comm]

/-- With enough fuel, `repDecimalAux` produces a non-empty, all-digit
representation whose value is the input. -/
theorem repDecimalAux_spec : ∀ fuel n, n < fuel →
    repDecimalAux fuel n ≠ [] ∧ (∀ c ∈ repDecimalAux fuel n, c.isDigit = true) ∧
      digitsToNat (repDecimalAux fuel n) = n := by
  intro fuel
  induction fuel with
  | zero => intro n h; omega
  | succ fuel ih =>
    intro n h
    by_cases h10 : n < 10
    · refine ⟨by simp [repDecimalAux, h10], ?_, ?_⟩
      · simpa [repDecimalAux, h10] using digitChar_isDigit n h10
      · simp [repDecimalAux, h10, digitsToNat, digitVal_digitChar n h10]
    · have hdiv : n / 10 < fuel := by
        have := Nat.div_lt_self (by omega : 0 < n) (by omega : 1 < 10)
        omega
      obtain ⟨hne, hdig, hval⟩ := ih (n / 10) hdiv
      refine ⟨by simp [repDecimalAux, h10], ?_, ?_⟩
      · intro c hc
        simp only [repDecimalAux, if_neg h10, List.mem_append, List.mem_singleton] at hc
        rcases hc with hc | hc
        · exact hdig c hc
        · subst hc; exact digitChar_isDigit _ (Nat.mod_lt _ (by omega))
      · simp only [repDecimalAux, if_neg h10, digitsToNat_append, hval,
          digitVal_digitChar _ (Nat.mod_lt _ (by omega : 0 < 10))]
        omega

/-- `repDecimal` facts packaged for use at the parser. -/
theorem repDecimal_spec (n : Nat) :
    repDecimal n ≠ [] ∧ (∀ c ∈ repDecimal n, c.isDigit = true) ∧
      digitsToNat (repDecimal n) = n :=
  repDecimalAux_spec (n + 1) n (Nat.lt_succ_self n)

/-- A list that starts with no digit (or is empty). -/
def notDigitStart : List Char → Prop
  | [] => True
  | c :: _ => c.isDigit = false

/-- `takeDigits` splits a digit run followed by a non-digit exactly there. -/
theorem takeDigits_append : ∀ (ds rest : List Char), (∀ c ∈ ds, c.isDigit = true) →
    notDigitStart rest → takeDigits (ds ++ rest) = (ds, rest) := by
  intro ds
  induction ds with
  | nil =>
    intro rest _ hrest
    cases rest with
    | nil => rfl
    | cons c t =>
      simp only [notDigitStart] at hrest
      simp [takeDigits, hrest]
  | cons d ds ih =>
    intro rest hds hrest
    have hd : d.isDigit = true := hds d (by simp)
    have := ih rest (fun c hc => hds c (by simp [hc])) hrest
    simp [takeDigits, hd, this]

/-- Parsing a JSON string body undoes `escList`: the escaped characters
followed by the closing quote decode to the original characters. -/
theorem parseStringBody_escList : ∀ (cs rest : List Char),
    parseStringBody (escList cs ++ '"' :: rest) = some (cs, rest) := by
  intro cs
  induction cs with
  | nil =>
    intro rest
    show parseStringBody ('"' :: rest) = some ([], rest)
    rw [parseStringBody.eq_def]; simp
  | cons c cs ih =>
    intro rest
    have hstep : escList (c :: cs) = escapeChar c ++ escList cs := by simp [escList]
    rw [hstep, List.append_assoc]
    by_cases h1 : c = '"'
    · subst h1
      simp only [escapeChar, if_pos rfl, List.cons_append, List.nil_append]
      rw [parseStringBody.eq_def]; simp +decide [unescapeChar, ih]
    by_cases h2 : c = '\\'
    · subst h2
      simp +decide only [escapeChar, List.cons_append, List.nil_append, ite_true, ite_false]
      rw [parseStringBody.eq_def]; simp +decide [unescapeChar, ih]
    by_cases h3 : c = '\n'
    · subst h3
      simp +decide only [escapeChar, List.cons_append, List.nil_append, ite_true, ite_false]
      rw [parseStringBody.eq_def]; simp +decide [unescapeChar, ih]
    by_cases h4 : c = '\t'
    · subst h4
      simp +decide only [escapeChar, List.cons_append, List.nil_append, ite_true, ite_false]
      rw [parseStringBody.eq_def]; simp +decide [unescapeChar, ih]
    by_cases h5 : c = '\r'
    · subst h5
      simp +decide only [escapeChar, List.cons_append, List.nil_append, ite_true, ite_false]
      rw [parseStringBody.eq_def]; simp +decide [unescapeChar, ih]
    by_cases h6 : c = Char.ofNat 8
    · subst h6
      simp +decide only [escapeChar, List.cons_append, List.nil_append, ite_true, ite_false]
      rw [parseStringBody.eq_def]; simp +decide [unescapeChar, ih]
    by_cases h7 : c = Char.ofNat 12
    · subst h7
      simp +decide only [escapeChar, List.cons_append, List.nil_append, ite_true, ite_false]
      rw [parseStringBody.eq_def]; simp +decide [unescapeChar, ih]
    by_cases h8 : c.toNat < 32
    · have hhi : c.toNat / 16 < 16 := by omega
      have hlo : c.toNat % 16 < 16 := Nat.mod_lt _ (by omega)
      simp only [escapeChar, if_neg h1, if_neg h2, if_neg h3, if_neg h4, if_neg h5,
        if_neg h6, if_neg h7, if_pos h8, List.cons_append, List.nil_append]
      rw [parseStringBody.eq_def]
      have h0 : hexVal '0' = some 0 := by decide
      simp +decide [h0, hexVal_hexChar _ hhi, hexVal_hexChar _ hlo, ih]
      rw [show (c.toNat / 16) * 16 + c.toNat % 16 = c.toNat by omega, Char.ofNat_toNat]
    · simp only [escapeChar, if_neg h1, if_neg h2, if_neg h3, if_neg h4, if_neg h5,
        if_neg h6, if_neg h7, if_neg h8, List.cons_append, List.nil_append]
      rw [parseStringBody.eq_def]
      simp [h1, h2, ih]

mutual

/-- Fuel needed by `parseVal` to parse the serialization of a value. -/
def jweight : PyObj → Nat
  | .plist xs => 1 + iweight xs
  | .pdict kvs => 1 + mweight kvs
  | _ => 1

/-- Fuel needed by `parseItems` to parse serialized array items. -/
def iweight : List PyObj → Nat
  | [] => 0
  | x :: rest => 1 + jweight x + iweight rest

/-- Fuel needed by `parseMembers` to parse serialized object members. -/
def mweight : List (String × PyObj) → Nat
  | [] => 0
  | kv :: rest => 1 + jweight kv.2 + mweight rest

end

/-- Every value needs at least one unit of fuel. -/
theorem jweight_pos (v : PyObj) : 1 ≤ jweight v := by
  cases v <;> simp [jweight]

/-- Whitespace skipping stops at a non-whitespace head. -/
theorem skipWs_cons_not_ws (c : Char) (t : List Char) (h : isWsChar c = false) :
    skipWs (c :: t) = c :: t := by simp [skipWs, h]

/-- Whitespace skipping passes a whitespace head. -/
theorem skipWs_cons_ws (c : Char) (t : List Char) (h : isWsChar c = true) :
    skipWs (c :: t) = skipWs t := by simp [skipWs, h]

/-- The code point of a decimal digit character lies between 48 and 57. -/
theorem digit_toNat (c : Char) (h : c.isDigit = true) : 48 ≤ c.toNat ∧ c.toNat ≤ 57 := by
  simp only [Char.isDigit, Bool.and_eq_true, decide_eq_true_eq] at h
  obtain ⟨h1, h2⟩ := h
  have g1 : (48 : UInt32).toNat ≤ c.val.toNat := h1
  have g2 : c.val.toNat ≤ (57 : UInt32).toNat := h2
  exact ⟨by simpa using g1, by simpa using g2⟩

/-- A decimal digit character is not whitespace and is none of the structural
characters the parser branches on. -/
theorem digit_head_facts (c : Char) (h : c.isDigit = true) :
    isWsChar c = false ∧ c ≠ ']' ∧ c ≠ '"' ∧ c ≠ '[' ∧ c ≠ lbrace ∧ c ≠ '-' := by
  have hn := digit_toNat c h
  have hsp : c ≠ ' ' := fun he => by subst he; revert hn; decide
  have hnl : c ≠ '\n' := fun he => by subst he; revert hn; decide
  have htb : c ≠ '\t' := fun he => by subst he; revert hn; decide
  have hcr : c ≠ '\r' := fun he => by subst he; revert hn; decide
  refine ⟨by simp [isWsChar, hsp, hnl, htb, hcr], ?_, ?_, ?_, ?_, ?_⟩ <;>
    exact fun he => by subst he; revert hn; decide

/-- The serialization of any value starts with a non-whitespace character that
is not a closing bracket. -/
theorem dumpsVal_head (v : PyObj) :
    ∃ c t, dumpsVal v = c :: t ∧ isWsChar c = false ∧ c ≠ ']' := by
  cases v with
  | pnone => exact ⟨'n', _, rfl, by decide, by decide⟩
  | pbool b => cases b with
    | true => exact ⟨'t', _, rfl, by decide, by decide⟩
    | false => exact ⟨'f', _, rfl, by decide, by decide⟩
  | pint n =>
    by_cases hn : n < 0
    · exact ⟨'-', repDecimal n.natAbs, by simp [dumpsVal, hn], by decide, by decide⟩
    · obtain ⟨hne, hdig, _⟩ := repDecimal_spec n.toNat
      rcases hrep : repDecimal n.toNat with _ | ⟨c, t⟩
      · exact absurd hrep hne
      · have hd : c.isDigit = true := hdig c (by rw [hrep]; simp)
        obtain ⟨hws, hbr, _⟩ := digit_head_facts c hd
        exact ⟨c, t, by simp [dumpsVal, hn, hrep], hws, hbr⟩
  | pstr s => exact ⟨'"', _, rfl, by decide, by decide⟩
  | plist xs => exact ⟨'[', _, rfl, by decide, by decide⟩
  | pdict kvs => exact ⟨lbrace, _, rfl, by decide, by decide⟩

/-- Whitespace skipping is the identity on a serialized value (plus anything
appended). -/
theorem skipWs_dumpsVal (v : PyObj) (rest : List Char) :
    skipWs (dumpsVal v ++ rest) = dumpsVal v ++ rest := by
  obtain ⟨c, t, hv, hws, _⟩ := dumpsVal_head v
  rw [hv, List.cons_append, skipWs_cons_not_ws _ _ hws]

/-- A non-empty item serialization starts with its first value's
serialization. -/
theorem dumpsItems_cons (x : PyObj) (xs : List PyObj) :
    ∃ t, dumpsItems (x :: xs) = dumpsVal x ++ t := by
  cases xs with
  | nil => exact ⟨[], by simp [dumpsItems]⟩
  | cons y r => exact ⟨_, rfl⟩

/-- A non-empty member serialization starts with a double quote. -/
theorem dumpsMembers_cons (kv : String × PyObj) (ms : List (String × PyObj)) :
    ∃ t, dumpsMembers (kv :: ms) = '"' :: t := by
  obtain ⟨k, v⟩ := kv
  cases ms with
  | nil => exact ⟨escapeString k ++ ('"' :: ':' :: ' ' :: dumpsVal v), rfl⟩
  | cons m r =>
    exact ⟨(escapeString k ++ ('"' :: ':' :: ' ' :: dumpsVal v)) ++ (',' :: ' ' :: dumpsMembers (m :: r)),
      by simp [dumpsMembers]⟩

/-- `parseVal` ignores a leading whitespace character. -/
theorem parseVal_ws (fuel : Nat) (c : Char) (l : List Char) (h : isWsChar c = true) :
    parseVal fuel (c :: l) = parseVal fuel l := by
  cases fuel with
  | zero => rfl
  | succ f => simp only [parseVal]; rw [skipWs_cons_ws _ _ h]

/-- `parseItems` ignores a leading whitespace character. -/
theorem parseItems_ws (fuel : Nat) (c : Char) (l : List Char) (h : isWsChar c = true) :
    parseItems fuel (c :: l) = parseItems fuel l := by
  cases fuel with
  | zero => rfl
  | succ f => simp only [parseItems]; rw [parseVal_ws _ _ _ h]

/-- `parseMembers` ignores a leading whitespace character. -/
theorem parseMembers_ws (fuel : Nat) (c : Char) (l : List Char) (h : isWsChar c = true) :
    parseMembers fuel (c :: l) = parseMembers fuel l := by
  cases fuel with
  | zero => rfl
  | succ f => simp only [parseMembers]; rw [skipWs_cons_ws _ _ h]

/-- Restriction on what may follow a serialized value so that number parsing
stops in the right place: after an integer the next character (if any) is not
a digit. -/
def numOk : PyObj → List Char → Prop
  | .pint _, c :: _ => c.isDigit = false
  | _, _ => True

/-- Any continuation is fine after a non-integer; a non-digit head is fine
after anything. -/
theorem numOk_cons (v : PyObj) (c : Char) (t : List Char) (h : c.isDigit = false) :
    numOk v (c :: t) := by cases v <;> simp [numOk, h]

/-- The empty continuation is fine after anything. -/
theorem numOk_nil (v : PyObj) : numOk v [] := by cases v <;> simp [numOk]

/-- Completeness of the JSON parser on serializer output: with fuel at least
the weight of the value, parsing its serialization (followed by any admissible
continuation) succeeds and consumes exactly the serialization. -/
theorem parse_dumps : ∀ fuel : Nat,
    (∀ v rest, jweight v ≤ fuel → numOk v rest →
      parseVal fuel (dumpsVal v ++ rest) = some (v, rest)) ∧
    (∀ xs rest, xs ≠ [] → iweight xs ≤ fuel →
      parseItems fuel (dumpsItems xs ++ ']' :: rest) = some (xs, rest)) ∧
    (∀ kvs rest, kvs ≠ [] → mweight kvs ≤ fuel →
      parseMembers fuel (dumpsMembers kvs ++ rbrace :: rest) = some (kvs, rest)) := by
  intro fuel
  induction fuel with
  | zero =>
    refine ⟨fun v rest hw _ => absurd hw (by have := jweight_pos v; omega),
      fun xs rest hne hw => ?_, fun kvs rest hne hw => ?_⟩
    · cases xs with
      | nil => exact absurd rfl hne
      | cons x t => simp [iweight] at hw
    · cases kvs with
      | nil => exact absurd rfl hne
      | cons kv t => simp [mweight] at hw
  | succ fuel ih =>
    obtain ⟨ihv, ihi, ihm⟩ := ih
    refine ⟨fun v rest hw hok => ?_, fun xs rest hne hw => ?_, fun kvs rest hne hw => ?_⟩
    · -- parseVal on a serialized value
      cases v with
      | pnone => simp +decide [dumpsVal, parseVal, skipWs]
      | pbool b => cases b <;> simp +decide [dumpsVal, parseVal, skipWs]
      | pint n =>
        have hnd : notDigitStart rest := by
          cases rest with
          | nil => trivial
          | cons c t => exact hok
        by_cases hn : n < 0
        · obtain ⟨hne2, hdig, hval⟩ := repDecimal_spec n.natAbs
          rw [show dumpsVal (.pint n) = '-' :: repDecimal n.natAbs from by simp [dumpsVal, hn]]
          simp only [parseVal, List.cons_append]
          rw [skipWs_cons_not_ws _ _ (by decide)]
          dsimp only
          rw [if_neg (by decide), if_neg (by decide), if_neg (by decide), if_pos rfl]
          rw [takeDigits_append _ _ hdig hnd]
          rcases hrep : repDecimal n.natAbs with _ | ⟨d, ds⟩
          · exact absurd hrep hne2
          · rw [hrep] at hval
            dsimp only
            rw [hval]
            rw [show (-(n.natAbs : Int)) = n from by omega]
        · obtain ⟨hne2, hdig, hval⟩ := repDecimal_spec n.toNat
          rw [show dumpsVal (.pint n) = repDecimal n.toNat from by simp [dumpsVal, hn]]
          rcases hrep : repDecimal n.toNat with _ | ⟨d, ds⟩
          · exact absurd hrep hne2
          rw [hrep] at hval hdig
          have hd : d.isDigit = true := hdig d (by simp)
          obtain ⟨hws, _, hq, hlb, hlbr, hmin⟩ := digit_head_facts d hd
          simp only [parseVal, List.cons_append]
          rw [skipWs_cons_not_ws _ _ hws]
          dsimp only
          rw [if_neg hq, if_neg hlb, if_neg hlbr, if_neg hmin, if_pos hd]
          rw [← List.cons_append, takeDigits_append _ _ hdig hnd]
          dsimp only
          rw [hval]
          rw [show ((n.toNat : Int)) = n from by omega]
      | pstr s =>
        rw [show dumpsVal (.pstr s) = '"' :: (escList s.data ++ ['"']) from rfl]
        simp only [List.cons_append, List.append_assoc, List.singleton_append, List.nil_append]
        simp only [parseVal]
        rw [skipWs_cons_not_ws _ _ (by decide)]
        dsimp only
        rw [if_pos rfl, parseStringBody_escList]
        simp [mk_data]
      | plist xs =>
        cases xs with
        | nil => simp +decide [dumpsVal, dumpsItems, parseVal, skipWs]
        | cons x xs2 =>
          have hwt : iweight (x :: xs2) ≤ fuel := by
            have : jweight (.plist (x :: xs2)) = 1 + iweight (x :: xs2) := by simp [jweight]
            omega
          obtain ⟨t, hitems⟩ := dumpsItems_cons x xs2
          obtain ⟨c2, t2, hx, hws2, hbr2⟩ := dumpsVal_head x
          rw [show dumpsVal (.plist (x :: xs2)) = '[' :: (dumpsItems (x :: xs2) ++ [']']) from rfl]
          simp only [List.cons_append, List.append_assoc, List.singleton_append, List.nil_append]
          simp only [parseVal]
          rw [skipWs_cons_not_ws _ _ (by decide)]
          dsimp only
          rw [if_neg (by decide), if_pos rfl]
          have harg : dumpsItems (x :: xs2) ++ ']' :: rest = c2 :: (t2 ++ (t ++ ']' :: rest)) := by
            rw [hitems, hx]; simp
          rw [harg, skipWs_cons_not_ws _ _ hws2]
          dsimp only
          rw [if_neg hbr2]
          have := ihi (x :: xs2) rest (by simp) hwt
          rw [harg] at this
          rw [this]
          rfl
      | pdict kvs =>
        cases kvs with
        | nil => simp +decide [dumpsVal, dumpsMembers, parseVal, skipWs]
        | cons kv ms =>
          have hwt : mweight (kv :: ms) ≤ fuel := by
            have : jweight (.pdict (kv :: ms)) = 1 + mweight (kv :: ms) := by simp [jweight]
            omega
          obtain ⟨t, hmem⟩ := dumpsMembers_cons kv ms
          rw [show dumpsVal (.pdict (kv :: ms)) = lbrace :: (dumpsMembers (kv :: ms) ++ [rbrace]) from rfl]
          simp only [List.cons_append, List.append_assoc, List.singleton_append, List.nil_append]
          simp only [parseVal]
          rw [skipWs_cons_not_ws _ _ (by decide)]
          dsimp only
          rw [if_neg (by decide), if_neg (by decide), if_pos rfl]
          have harg : dumpsMembers (kv :: ms) ++ rbrace :: rest = '"' :: (t ++ rbrace :: rest) := by
            rw [hmem]; simp
          rw [harg, skipWs_cons_not_ws _ _ (by decide)]
          dsimp only
          rw [if_neg (by decide)]
          have := ihm (kv :: ms) rest (by simp) hwt
          rw [harg] at this
          rw [this]
          rfl
    · -- parseItems on serialized items
      cases xs with
      | nil => exact absurd rfl hne
      | cons x xs2 =>
        cases xs2 with
        | nil =>
          have hwx : jweight x ≤ fuel := by simp [iweight] at hw; omega
          simp only [dumpsItems, parseItems]
          rw [ihv x (']' :: rest) hwx (numOk_cons _ _ _ (by decide))]
          simp only [Option.some_bind]
          rw [skipWs_cons_not_ws _ _ (by decide)]
          dsimp only
          rw [if_neg (by decide), if_pos rfl]
        | cons y r =>
          have hwx : jweight x ≤ fuel := by simp [iweight] at hw; omega
          have hwr : iweight (y :: r) ≤ fuel := by simp [iweight] at hw ⊢; omega
          simp only [dumpsItems, parseItems]
          rw [List.append_assoc]
          simp only [List.cons_append]
          rw [ihv x _ hwx (numOk_cons _ _ _ (by decide))]
          simp only [Option.some_bind]
          rw [skipWs_cons_not_ws _ _ (by decide)]
          dsimp only
          rw [if_pos rfl]
          rw [parseItems_ws _ _ _ (by decide)]
          rw [show dumpsItems (y :: r) ++ ']' :: rest = dumpsItems (y :: r) ++ ']' :: rest from rfl]
          rw [ihi (y :: r) rest (by simp) hwr]
          rfl
    · -- parseMembers on serialized members
      cases kvs with
      | nil => exact absurd rfl hne
      | cons kv ms =>
        obtain ⟨k, v⟩ := kv
        cases ms with
        | nil =>
          have hwv : jweight v ≤ fuel := by simp [mweight] at hw; omega
          simp only [dumpsMembers, parseMembers, escapeString]
          simp only [List.cons_append, List.append_assoc]
          rw [skipWs_cons_not_ws _ _ (by decide)]
          dsimp only
          rw [if_pos rfl]
          try simp only [List.cons_append]
          rw [parseStringBody_escList]
          simp only [Option.some_bind]
          rw [skipWs_cons_not_ws _ _ (by decide)]
          dsimp only
          rw [if_pos rfl]
          rw [parseVal_ws _ _ _ (by decide)]
          rw [ihv v (rbrace :: rest) hwv (numOk_cons _ _ _ (by decide))]
          simp only [Option.some_bind]
          rw [skipWs_cons_not_ws _ _ (by decide)]
          dsimp only
          rw [if_neg (by decide), if_pos rfl]
        | cons m ms2 =>
          have hwv : jweight v ≤ fuel := by simp [mweight] at hw; omega
          have hwr : mweight (m :: ms2) ≤ fuel := by simp [mweight] at hw ⊢; omega
          simp only [dumpsMembers, parseMembers, escapeString]
          simp only [List.cons_append, List.append_assoc]
          rw [skipWs_cons_not_ws _ _ (by decide)]
          dsimp only
          rw [if_pos rfl]
          try simp only [List.cons_append]
          rw [parseStringBody_escList]
          simp only [Option.some_bind]
          rw [skipWs_cons_not_ws _ _ (by decide)]
          dsimp only
          rw [if_pos rfl]
          rw [parseVal_ws _ _ _ (by decide)]
          rw [ihv v _ hwv (numOk_cons _ _ _ (by decide))]
          simp only [Option.some_bind]
          rw [skipWs_cons_not_ws _ _ (by decide)]
          dsimp only
          rw [if_pos rfl]
          rw [parseMembers_ws _ _ _ (by decide)]
          rw [ihm (m :: ms2) rest (by simp) hwr]
          rw [mk_data]
          rfl

mutual

/-- The fuel needed for a value is at most the length of its serialization. -/
theorem jweight_le_length : ∀ v : PyObj, jweight v ≤ (dumpsVal v).length
  | .pnone => by simp [jweight, dumpsVal]
  | .pbool true => by simp [jweight, dumpsVal]
  | .pbool false => by simp [jweight, dumpsVal]
  | .pint n => by
      by_cases hn : n < 0
      · simp [jweight, dumpsVal, hn]
      · obtain ⟨hne, _, _⟩ := repDecimal_spec n.toNat
        rcases hrep : repDecimal n.toNat with _ | ⟨d, ds⟩
        · exact absurd hrep hne
        · simp [jweight, dumpsVal, hn, hrep]
  | .pstr s => by simp [jweight, dumpsVal]
  | .plist xs => by
      have h := iweight_le_length xs
      simp [jweight, dumpsVal]
      omega
  | .pdict kvs => by
      have h := mweight_le_length kvs
      simp [jweight, dumpsVal]
      omega

/-- The fuel needed for items is at most one more than the length of their
serialization. -/
theorem iweight_le_length : ∀ xs : List PyObj, iweight xs ≤ (dumpsItems xs).length + 1
  | [] => by simp [iweight, dumpsItems]
  | [x] => by
      have h := jweight_le_length x
      simp [iweight, dumpsItems]
      omega
  | x :: y :: r => by
      have h1 := jweight_le_length x
      have h2 := iweight_le_length (y :: r)
      simp [iweight, dumpsItems] at h2 ⊢
      omega

/-- The fuel needed for members is at most one more than the length of their
serialization. -/
theorem mweight_le_length : ∀ kvs : List (String × PyObj), mweight kvs ≤ (dumpsMembers kvs).length + 1
  | [] => by simp [mweight, dumpsMembers]
  | [(k, v)] => by
      have h := jweight_le_length v
      simp [mweight, dumpsMembers]
      omega
  | (k, v) :: m :: r => by
      have h1 := jweight_le_length v
      have h2 := mweight_le_length (m :: r)
      simp [mweight, dumpsMembers] at h2 ⊢
      omega

end

/-- Round trip: `json.loads` recovers exactly the value serialized by
`json.dumps`.  This is the stdlib contract the context store relies on. -/
theorem json_loads_dumps (v : PyObj) : json_loads (json_dumps v) = some v := by
  have hw : jweight v ≤ (dumpsVal v).length + 1 := Nat.le_succ_of_le (jweight_le_length v)
  have h := (parse_dumps ((dumpsVal v).length + 1)).1 v [] hw (numOk_nil v)
  rw [List.append_nil] at h
  show (match parseVal ((dumpsVal v).length + 1) (dumpsVal v) with
    | some (w, rest) => if skipWs rest = [] then some w else none
    | none => none) = some v
  rw [h]
  rfl

/-! ### Context store (`utils/context_store.py`)

The `task_context` table holds rows `(task_id, context_json)` in insertion
order, with `task_id` as primary key.  `save` runs
`INSERT ... ON CONFLICT(task_id) DO UPDATE SET context_json=excluded.context_json`,
modelled as an in-place replace-or-append; `load` runs a `SELECT ... WHERE
task_id=?`, calls `fetchone()` and then `row[0]` — when no row matches,
`row` is `None` and the subscript raises `TypeError`, modelled by the
`Except.error` branch. -/

/-- The persisted `task_context` table. -/
abbrev Table := List (String × String)

/-- Replace the value of the existing row for the key, or append a new row
(SQLite upsert). -/
def upsertRow : Table → String → String → Table
  | [], k, s => [(k, s)]
  | (k', s') :: rest, k, s => if k' = k then (k, s) :: rest else (k', s') :: upsertRow rest k s

/-- Model of `ContextStore.save(task_id, ctx)`. -/
def ContextStore.save (tbl : Table) (task_id : String) (ctx : PyObj) : Table :=
  upsertRow tbl task_id (json_dumps ctx)

/-- Result of `SELECT context_json FROM task_context WHERE task_id=?` plus
`fetchone()`. -/
def findRow : Table → String → Option String
  | [], _ => none
  | (k, s) :: rest, task_id => if k = task_id then some s else findRow rest task_id

/-- Model of `ContextStore.load(task_id)`.  The missing-row case is the
unguarded `row[0]` on `None`. -/
def ContextStore.load (tbl : Table) (task_id : String) : Except String PyObj :=
  match findRow tbl task_id with
  | none => .error "TypeError: 'NoneType' object is not subscriptable"
  | some s =>
    match json_loads s with
    | some v => .ok v
    | none => .error "json.decoder.JSONDecodeError"

/-- Number of table rows carrying the given task id. -/
def countRows (tbl : Table) (task_id : String) : Nat :=
  (tbl.filter (fun r => r.1 == task_id)).length

/-- Replay a sequence of `save` calls against a table. -/
def applySaves (tbl : Table) (saves : List (String × PyObj)) : Table :=
  saves.foldl (fun acc sv => ContextStore.save acc sv.1 sv.2) tbl

/-- After an upsert, looking the key up finds the new value. -/
theorem findRow_upsertRow (tbl : Table) (k s : String) :
    findRow (upsertRow tbl k s) k = some s := by
  induction tbl with
  | nil => simp [upsertRow, findRow]
  | cons r rest ih =>
    obtain ⟨k', s'⟩ := r
    by_cases hk : k' = k
    · simp [upsertRow, hk, findRow]
    · simp [upsertRow, hk, findRow, ih]

/-- Upserting the same key twice keeps only the second value: the first
upsert is completely overwritten. -/
theorem upsertRow_upsertRow (tbl : Table) (k s1 s2 : String) :
    upsertRow (upsertRow tbl k s1) k s2 = upsertRow tbl k s2 := by
  induction tbl with
  | nil => simp [upsertRow]
  | cons r rest ih =>
    obtain ⟨k', s'⟩ := r
    by_cases hk : k' = k
    · simp [upsertRow, hk]
    · simp [upsertRow, hk, ih]

/-- An upsert leaves exactly one row for its key when the table is
well-formed (and in general never decreases it below one). -/
theorem countRows_upsertRow_self (tbl : Table) (k s : String) :
    countRows (upsertRow tbl k s) k = max 1 (countRows tbl k) := by
  induction tbl with
  | nil => simp [upsertRow, countRows]
  | cons r rest ih =>
    obtain ⟨k', s'⟩ := r
    by_cases hk : k' = k
    · simp [upsertRow, hk, countRows]
    · have hk2 : (k' == k) = false := by simp [hk]
      simp only [upsertRow, if_neg hk]
      simp only [countRows, List.filter] at ih ⊢
      simp [hk2, ih]

/-- An upsert does not change the row count of other keys. -/
theorem countRows_upsertRow_ne (tbl : Table) (k s q : String) (h : q ≠ k) :
    countRows (upsertRow tbl k s) q = countRows tbl q := by
  induction tbl with
  | nil =>
    have hkq : (k == q) = false := by simp [Ne.symm h]
    simp [upsertRow, countRows, List.filter, hkq]
  | cons r rest ih =>
    obtain ⟨k', s'⟩ := r
    by_cases hk : k' = k
    · subst hk
      have hkq : (k' == q) = false := by simp [Ne.symm h]
      simp [upsertRow, countRows, List.filter, hkq]
    · simp only [upsertRow, if_neg hk]
      simp only [countRows, List.filter] at ih ⊢
      cases hq : (k' == q) <;> simp [hq, ih]

/-- Row counts after replaying saves: a saved id has exactly one row more
than `max` with its initial presence; an untouched id keeps its count. -/
theorem countRows_applySaves (saves : List (String × PyObj)) (tbl : Table) (tid : String) :
    countRows (applySaves tbl saves) tid =
      if tid ∈ saves.map Prod.fst then max 1 (countRows tbl tid) else countRows tbl tid := by
  induction saves generalizing tbl with
  | nil => simp [applySaves]
  | cons sv rest ih =>
    have hstep : applySaves tbl (sv :: rest) = applySaves (ContextStore.save tbl sv.1 sv.2) rest := rfl
    rw [hstep, ih]
    by_cases hin : tid ∈ rest.map Prod.fst
    · by_cases hsv : tid = sv.1
      · subst hsv
        simp [hin, ContextStore.save, countRows_upsertRow_self]
      · simp [hin, ContextStore.save, countRows_upsertRow_ne _ _ _ _ hsv]
    · by_cases hsv : tid = sv.1
      · subst hsv
        simp [hin, ContextStore.save, countRows_upsertRow_self]
      · have : ¬ tid ∈ (sv :: rest).map Prod.fst := by
          simp [hin, hsv]
        simp [hin, hsv, this, ContextStore.save, countRows_upsertRow_ne _ _ _ _ hsv]

/-- A key with row count zero is not found. -/
theorem findRow_eq_none_of_countRows_zero (tbl : Table) (tid : String)
    (h : countRows tbl tid = 0) : findRow tbl tid = none := by
  induction tbl with
  | nil => rfl
  | cons r rest ih =>
    obtain ⟨k, s⟩ := r
    simp only [countRows, List.filter] at h
    cases hk : (k == tid) with
    | true => rw [hk] at h; simp at h
    | false =>
      rw [hk] at h
      have hne : ¬ k = tid := by simpa using hk
      simp only [findRow, if_neg hne]
      exact ih h

/-- C6: `save` followed by `load` of the same task id returns a context
structurally equal to the saved one; saving the same task id twice fully
overwrites the first save; and after any sequence of saves starting from an
empty store, a task id has exactly one row if it was ever saved and none
otherwise (upsert semantics, no duplicates). -/
theorem context_store_save_load_roundtrip :
    (∀ (tbl : Table) (tid : String) (ctx : PyObj),
      ContextStore.load (ContextStore.save tbl tid ctx) tid = .ok ctx) ∧
    (∀ (tbl : Table) (tid : String) (c1 c2 : PyObj),
      ContextStore.save (ContextStore.save tbl tid c1) tid c2 = ContextStore.save tbl tid c2) ∧
    (∀ (saves : List (String × PyObj)) (tid : String),
      countRows (applySaves [] saves) tid = if tid ∈ saves.map Prod.fst then 1 else 0) := by
  refine ⟨fun tbl tid ctx => ?_, fun tbl tid c1 c2 => ?_, fun saves tid => ?_⟩
  · simp only [ContextStore.load, ContextStore.save, findRow_upsertRow, json_loads_dumps]
  · simp only [ContextStore.save, upsertRow_upsertRow]
  · rw [countRows_applySaves]
    have h0 : countRows [] tid = 0 := rfl
    rw [h0]
    by_cases hin : tid ∈ saves.map Prod.fst <;> simp [hin]

/-- C10: loading a task id for which no save has ever been performed reaches
the unguarded `row[0]` on `None` and raises `TypeError` (modelled as the
`Except.error` branch); `load` returns normally only when a row for the task
id exists. -/
theorem context_store_load_missing_raises :
    (∀ (saves : List (String × PyObj)) (tid : String), tid ∉ saves.map Prod.fst →
      ContextStore.load (applySaves [] saves) tid =
        .error "TypeError: 'NoneType' object is not subscriptable") ∧
    (∀ (tbl : Table) (tid : String) (v : PyObj), ContextStore.load tbl tid = .ok v →
      ∃ s, findRow tbl tid = some s) := by
  constructor
  · intro saves tid hnot
    have hc : countRows (applySaves [] saves) tid = 0 := by
      rw [countRows_applySaves]
      simp [hnot]
      rfl
    rw [ContextStore.load, findRow_eq_none_of_countRows_zero _ _ hc]
  · intro tbl tid v h
    rw [ContextStore.load] at h
    rcases hf : findRow tbl tid with _ | s
    · rw [hf] at h; simp at h
    · exact ⟨s, rfl⟩

/-- Witness for C10 at a concrete store and task id: an empty store (no saves
at all) makes `load` raise. -/
theorem context_store_load_missing_raises_witness :
    ContextStore.load (applySaves [] []) "task-1" =
      .error "TypeError: 'NoneType' object is not subscriptable" :=
  context_store_load_missing_raises.1 [] "task-1" (by simp)

/-! ### Tool registry and tool executor (`akshare_tools.py`, `agent_app.py`)

`execute_single_tool` is defined identically in `agent_app.py` and
`multi-Agent.py`; both look up the global registry `AVAILABLE_TOOLS`, invoke
`tool_function(**tool_args)`, JSON-serialize structured results, return
string results as-is, and translate `TypeError` / any other exception into a
JSON error payload (`json.dumps(..., ensure_ascii=False)`, so the Chinese
messages stay unescaped).

The tools' own bodies wrap everything after the entry log line in
`try/except Exception`, so a registered tool call can only raise out of the
call through named-argument binding (`TypeError`).  The two data tools'
network/database/chart internals are outside the spec's scope (§1, §6) and
are modelled as opaque `World` outcomes; `query_macro_data` is modelled in
full for the macro-indicator property. -/

/-- Argument mapping passed to a tool (a Python `dict` of named arguments;
keys are unique as in a `dict`). -/
abbrev Args := List (String × PyObj)

/-- Value a tool body returns: a structured value (`dict`/`list`/`int`/
`float`/`bool`, which the executor JSON-serializes) or text (returned
as-is).  The repository's tools return only JSON text. -/
inductive ToolRet : Type where
  | struct (v : PyObj) : ToolRet
  | text (s : String) : ToolRet

/-- Outcome of `tool_function(**tool_args)`: a returned value, a raised
`TypeError` (argument binding failure, or one escaping the body), or any
other raised exception, with the exception's message. -/
inductive CallOutcome : Type where
  | ret (r : ToolRet) : CallOutcome
  | raiseTypeError (msg : String) : CallOutcome
  | raiseOther (msg : String) : CallOutcome

/-- A registered tool as the executor sees it. -/
abbrev ToolFn := Args → CallOutcome

/-- One row of a macro-indicator dataframe after the column renames:
the `年份` cell and the indicator cell (`CPI_Index` or `GDP(亿元)`). -/
structure MacroRow : Type where
  year : PyObj
  value : PyObj

/-- Outcomes of the external collaborators the tools depend on: the AkShare
yearly CPI/GDP fetches (which may raise), and the opaque JSON payloads of the
two stock tools' bodies (data retrieval internals are out of scope, spec §1). -/
structure World : Type where
  cpi_rows : Except String (List MacroRow)
  gdp_rows : Except String (List MacroRow)
  stock_payload : Args → String
  viz_payload : Args → String

/-- Python `str()` of a value as interpolated into the tools' f-strings;
containers (which the tools never interpolate) are rendered in JSON form. -/
def pyToStr : PyObj → String
  | .pstr s => s
  | .pint n => if n < 0 then String.mk ('-' :: repDecimal n.natAbs) else String.mk (repDecimal n.toNat)
  | .pbool true => "True"
  | .pbool false => "False"
  | .pnone => "None"
  | v => json_dumps v

/-- JSON error object `{"error": msg}` as `json.dumps(..., ensure_ascii=False)`
emits it. -/
def jsonErrorPayload (msg : String) : String := json_dumps (.pdict [("error", .pstr msg)])

/-- Escape of one character with `ensure_ascii=True` (the `json.dumps`
default, used on some error paths of `akshare_tools.py`): ASCII characters as
usual, the basic plane as `\uXXXX`, and astral characters as a surrogate
pair. -/
def asciiEscapeChar (c : Char) : List Char :=
  if c.toNat < 128 then escapeChar c
  else if c.toNat < 65536 then
    ['\\', 'u', hexChar (c.toNat / 4096 % 16), hexChar (c.toNat / 256 % 16),
      hexChar (c.toNat / 16 % 16), hexChar (c.toNat % 16)]
  else
    let n := c.toNat - 65536
    let hi := 55296 + n / 1024
    let lo := 56320 + n % 1024
    ['\\', 'u', hexChar (hi / 4096 % 16), hexChar (hi / 256 % 16), hexChar (hi / 16 % 16), hexChar (hi % 16)]
      ++ ['\\', 'u', hexChar (lo / 4096 % 16), hexChar (lo / 256 % 16), hexChar (lo / 16 % 16), hexChar (lo % 16)]

/-- JSON error object `{"error": msg}` as plain `json.dumps(...)` emits it
(`ensure_ascii=True`). -/
def jsonErrorPayloadAscii (msg : String) : String :=
  String.mk (lbrace :: ('"' :: "error".data ++ '"' :: ':' :: ' ' :: '"' ::
    (msg.data.foldr (fun c acc => asciiEscapeChar c ++ acc) [] ++ ['"', rbrace])))

/-- Model of `query_macro_data(indicator)` from `akshare_tools.py`: branch on
the indicator, fetch the yearly table from AkShare (any raise is caught and
reported), reject an empty table, keep the first 5 rows (`df.head(5)`),
format the text block, and serialize the summary
`{"indicator", "latest_data_points", "formatted_output"}` with
`ensure_ascii=False`. -/
def query_macro_data (w : World) (indicator : PyObj) : String :=
  match indicator with
  | .pstr s =>
    if s = "GDP" then
      match w.gdp_rows with
      | .error e => jsonErrorPayloadAscii ("AkShare 宏观数据调用失败: " ++ e)
      | .ok df =>
        if df.isEmpty then jsonErrorPayloadAscii "未找到 GDP 的数据 (AkShare)。"
        else
          let latest := df.take 5
          let lines := latest.map (fun r =>
            "年份 " ++ pyToStr r.year ++ ": 国内生产总值(GDP) " ++ pyToStr r.value ++ " 亿元")
          let fmt := "最近的 GDP 宏观数据显示：\n" ++ String.intercalate "\n" lines
          let recs := latest.map (fun r => PyObj.pdict [("年份", r.year), ("GDP(亿元)", r.value)])
          json_dumps (.pdict [("indicator", .pstr "GDP"),
            ("latest_data_points", .plist recs), ("formatted_output", .pstr fmt)])
    else if s = "CPI" then
      match w.cpi_rows with
      | .error e => jsonErrorPayloadAscii ("AkShare 宏观数据调用失败: " ++ e)
      | .ok df =>
        if df.isEmpty then jsonErrorPayloadAscii "未找到 CPI 的数据 (AkShare)。"
        else
          let latest := df.take 5
          let lines := latest.map (fun r =>
            "年份 " ++ pyToStr r.year ++ ": 居民消费价格指数(上年=100) 为 " ++ pyToStr r.value)
          let fmt := "最近的 CPI 宏观数据显示：\n" ++ String.intercalate "\n" lines
          let recs := latest.map (fun r => PyObj.pdict [("年份", r.year), ("CPI_Index", r.value)])
          json_dumps (.pdict [("indicator", .pstr "CPI"),
            ("latest_data_points", .plist recs), ("formatted_output", .pstr fmt)])
    else jsonErrorPayloadAscii ("不支持的宏观经济指标: " ++ s ++ "。请查询 'CPI' 或 'GDP'。")
  | v => jsonErrorPayloadAscii ("不支持的宏观经济指标: " ++ pyToStr v ++ "。请查询 'CPI' 或 'GDP'。")

/-- CPython named-argument binding for `f(**kwargs)`: an argument name
outside the signature raises `TypeError: f() got an unexpected keyword
argument '<k>'`; a required parameter without default left unbound raises
`TypeError: f() missing 1 required positional argument: '<p>'`.  Returns the
message of the first failure, or `none` when binding succeeds. -/
def bindError (fname : String) (allowed required : List String) (args : Args) : Option String :=
  match args.find? (fun kv => !(allowed.contains kv.1)) with
  | some kv => some (fname ++ "() got an unexpected keyword argument '" ++ kv.1 ++ "'")
  | none =>
    match required.find? (fun r => !((args.map Prod.fst).contains r)) with
    | some r => some (fname ++ "() missing 1 required positional argument: '" ++ r ++ "'")
    | none => none

/-- Value bound to a named argument (the binding check guarantees presence). -/
def lookupArg (args : Args) (k : String) : PyObj :=
  match args.find? (fun kv => kv.1 == k) with
  | some kv => kv.2
  | none => .pnone

/-- `get_stock_zh_a_spot_data(symbol, period, start_date, end_date)` — all
parameters have defaults; the body never raises (everything after the entry
log sits in `try/except Exception`) and always returns a JSON string,
abstracted as a `World` payload. -/
def get_stock_zh_a_spot_data_tool (w : World) : ToolFn := fun args =>
  match bindError "get_stock_zh_a_spot_data" ["symbol", "period", "start_date", "end_date"] [] args with
  | some e => .raiseTypeError e
  | none => .ret (.text (w.stock_payload args))

/-- `visualize_stock_data_trend(symbol)` — one required parameter; the body
never raises and always returns a JSON string, abstracted as a `World`
payload. -/
def visualize_stock_data_trend_tool (w : World) : ToolFn := fun args =>
  match bindError "visualize_stock_data_trend" ["symbol"] ["symbol"] args with
  | some e => .raiseTypeError e
  | none => .ret (.text (w.viz_payload args))

/-- `query_macro_data(indicator)` — one required parameter; the body never
raises and always returns a JSON string. -/
def query_macro_data_tool (w : World) : ToolFn := fun args =>
  match bindError "query_macro_data" ["indicator"] ["indicator"] args with
  | some e => .raiseTypeError e
  | none => .ret (.text (query_macro_data w (lookupArg args "indicator")))

/-- The registry `AVAILABLE_TOOLS` of `akshare_tools.py`, in source order. -/
def AVAILABLE_TOOLS (w : World) : List (String × ToolFn) :=
  [("get_stock_zh_a_spot_data", get_stock_zh_a_spot_data_tool w),
   ("visualize_stock_data_trend", visualize_stock_data_trend_tool w),
   ("query_macro_data", query_macro_data_tool w)]

/-- Dictionary lookup `AVAILABLE_TOOLS[tool_name]` guarded by
`tool_name not in AVAILABLE_TOOLS`. -/
def lookupTool (reg : List (String × ToolFn)) (tool_name : String) : Option ToolFn :=
  (reg.find? (fun p => p.1 == tool_name)).map Prod.snd

/-- Model of `execute_single_tool(tool_name, tool_args)` (identical in
`agent_app.py` lines 195–233 and `multi-Agent.py` lines 90–128): unknown
tool → not-found payload; structured result → `json.dumps`; string result →
returned as-is; `TypeError` → parameter-error payload; any other exception →
runtime-error payload.  Totality of this function is the "never raises"
guarantee. -/
def execute_single_tool (reg : List (String × ToolFn)) (tool_name : String) (tool_args : Args) : String :=
  match lookupTool reg tool_name with
  | none => jsonErrorPayload ("执行失败: 找不到工具 '" ++ tool_name ++ "'")
  | some f =>
    match f tool_args with
    | .ret (.struct v) => json_dumps v
    | .ret (.text s) => s
    | .raiseTypeError e => jsonErrorPayload ("参数错误: 工具 '" ++ tool_name ++ "' 不接受提供的参数: " ++ e)
    | .raiseOther e => jsonErrorPayload ("运行时错误: 工具 '" ++ tool_name ++ "' 执行异常: " ++ e)

/-- C2: for every registry, tool name and argument mapping, the executor is
total (never lets an exception cross into the conversation) and its string
result is exactly one of: the not-found error object, the JSON serialization
of a structured success value, the tool's own text returned as-is, the
parameter-error object for a raised `TypeError`, or the runtime-error object
for any other raised exception. -/
theorem execute_single_tool_total :
    ∀ (reg : List (String × ToolFn)) (tool_name : String) (tool_args : Args),
      (lookupTool reg tool_name = none ∧
        execute_single_tool reg tool_name tool_args =
          jsonErrorPayload ("执行失败: 找不到工具 '" ++ tool_name ++ "'")) ∨
      (∃ f, lookupTool reg tool_name = some f ∧
        ((∃ v, f tool_args = .ret (.struct v) ∧
            execute_single_tool reg tool_name tool_args = json_dumps v) ∨
         (∃ s, f tool_args = .ret (.text s) ∧
            execute_single_tool reg tool_name tool_args = s) ∨
         (∃ e, f tool_args = .raiseTypeError e ∧
            execute_single_tool reg tool_name tool_args =
              jsonErrorPayload ("参数错误: 工具 '" ++ tool_name ++ "' 不接受提供的参数: " ++ e)) ∨
         (∃ e, f tool_args = .raiseOther e ∧
            execute_single_tool reg tool_name tool_args =
              jsonErrorPayload ("运行时错误: 工具 '" ++ tool_name ++ "' 执行异常: " ++ e)))) := by
  intro reg tool_name tool_args
  rcases hf : lookupTool reg tool_name with _ | f
  · exact Or.inl ⟨rfl, by rw [execute_single_tool, hf]⟩
  · refine Or.inr ⟨f, rfl, ?_⟩
    rcases ho : f tool_args with r | e | e
    · cases r with
      | struct v => exact Or.inl ⟨v, rfl, by rw [execute_single_tool, hf]; dsimp only; rw [ho]⟩
      | text s => exact Or.inr (Or.inl ⟨s, rfl, by rw [execute_single_tool, hf]; dsimp only; rw [ho]⟩)
    · exact Or.inr (Or.inr (Or.inl ⟨e, rfl, by rw [execute_single_tool, hf]; dsimp only; rw [ho]⟩))
    · exact Or.inr (Or.inr (Or.inr ⟨e, rfl, by rw [execute_single_tool, hf]; dsimp only; rw [ho]⟩))

/-- Trivial world used in concrete evaluations. -/
def w0 : World := ⟨.ok [], .ok [], fun _ => "", fun _ => ""⟩

set_option maxRecDepth 8192 in
/-- C4 counterexample: the not-found payload the source emits is the Chinese
`{"error": "执行失败: 找不到工具 'nonexistent_tool'"}`, which does not contain
the English fragment `not found` asserted by the claim. -/
theorem execute_unknown_tool_counterexample :
    execute_single_tool (AVAILABLE_TOOLS w0) "nonexistent_tool" [] =
      jsonErrorPayload "执行失败: 找不到工具 'nonexistent_tool'" ∧
    ¬ ("not found".data <:+:
        (execute_single_tool (AVAILABLE_TOOLS w0) "nonexistent_tool" []).data) := by
  exact ⟨rfl, by decide⟩

/-- C4 amended: for every tool name absent from the registry
`AVAILABLE_TOOLS` and every argument mapping, `execute_single_tool` returns
the payload `{"error": "执行失败: 找不到工具 '<name>'"}` (the Chinese
execution-failed message, which contains the requested name) and does not
raise. -/
theorem execute_unknown_tool (w : World) (tool_name : String) (tool_args : Args)
    (h : tool_name ∉ ["get_stock_zh_a_spot_data", "visualize_stock_data_trend", "query_macro_data"]) :
    execute_single_tool (AVAILABLE_TOOLS w) tool_name tool_args =
      jsonErrorPayload ("执行失败: 找不到工具 '" ++ tool_name ++ "'") ∧
    tool_name.data <:+: ("执行失败: 找不到工具 '" ++ tool_name ++ "'").data := by
  have h1 : tool_name ≠ "get_stock_zh_a_spot_data" := by intro he; exact h (by simp [he])
  have h2 : tool_name ≠ "visualize_stock_data_trend" := by intro he; exact h (by simp [he])
  have h3 : tool_name ≠ "query_macro_data" := by intro he; exact h (by simp [he])
  have b1 : ("get_stock_zh_a_spot_data" == tool_name) = false := by
    simp [Ne.symm h1]
  have b2 : ("visualize_stock_data_trend" == tool_name) = false := by
    simp [Ne.symm h2]
  have b3 : ("query_macro_data" == tool_name) = false := by
    simp [Ne.symm h3]
  have hlk : lookupTool (AVAILABLE_TOOLS w) tool_name = none := by
    simp [lookupTool, AVAILABLE_TOOLS, List.find?, b1, b2, b3]
  constructor
  · rw [execute_single_tool, hlk]
  · have hdat : ("执行失败: 找不到工具 '" ++ tool_name ++ "'").data =
        "执行失败: 找不到工具 '".data ++ tool_name.data ++ "'".data := by
      rw [String.data_append, String.data_append]
    rw [hdat]
    exact List.infix_append _ _ _

/-- Witness for the amended C4 at the concrete name `nonexistent_tool`. -/
theorem execute_unknown_tool_witness :
    "nonexistent_tool" ∉ ["get_stock_zh_a_spot_data", "visualize_stock_data_trend", "query_macro_data"] ∧
    execute_single_tool (AVAILABLE_TOOLS w0) "nonexistent_tool" [] =
      jsonErrorPayload ("执行失败: 找不到工具 '" ++ "nonexistent_tool" ++ "'") :=
  ⟨by decide, (execute_unknown_tool w0 "nonexistent_tool" [] (by decide)).1⟩

set_option maxRecDepth 8192 in
/-- C5 counterexample: a parameter-shape mismatch on the registered tool
`query_macro_data` (an unexpected keyword argument) yields the Chinese
payload `{"error": "参数错误: 工具 'query_macro_data' 不接受提供的参数: ..."}`,
which does not contain the English fragment `parameter error` asserted by
the claim. -/
theorem execute_param_error_counterexample :
    execute_single_tool (AVAILABLE_TOOLS w0) "query_macro_data" [("bogus", .pnone)] =
      jsonErrorPayload ("参数错误: 工具 'query_macro_data' 不接受提供的参数: " ++
        "query_macro_data() got an unexpected keyword argument 'bogus'") ∧
    ¬ ("parameter error".data <:+:
        (execute_single_tool (AVAILABLE_TOOLS w0) "query_macro_data" [("bogus", .pnone)]).data) := by
  exact ⟨rfl, by decide⟩

/-- C5 amended: for every registered tool invocation, a `TypeError` raised by
the call — a parameter-shape mismatch during binding, or a `TypeError`
escaping the tool body, which the single `except TypeError` clause cannot
tell apart — yields `{"error": "参数错误: 工具 '<name>' 不接受提供的参数: <e>"}`,
and every other exception raised inside the tool's execution yields
`{"error": "运行时错误: 工具 '<name>' 执行异常: <msg>"}`. -/
theorem execute_tool_error_payloads :
    ∀ (reg : List (String × ToolFn)) (tool_name : String) (f : ToolFn) (tool_args : Args),
      lookupTool reg tool_name = some f →
      (∀ e, f tool_args = .raiseTypeError e →
        execute_single_tool reg tool_name tool_args =
          jsonErrorPayload ("参数错误: 工具 '" ++ tool_name ++ "' 不接受提供的参数: " ++ e)) ∧
      (∀ e, f tool_args = .raiseOther e →
        execute_single_tool reg tool_name tool_args =
          jsonErrorPayload ("运行时错误: 工具 '" ++ tool_name ++ "' 执行异常: " ++ e)) := by
  intro reg tool_name f tool_args hf
  constructor <;> intro e he <;> (rw [execute_single_tool, hf]; dsimp only; rw [he])

/-- A demonstration tool whose body raises a non-`TypeError` exception. -/
def demo_failing_tool : ToolFn := fun _ => .raiseOther "boom"

/-- Witness for the amended C5: a registry with a failing tool produces the
runtime-error payload. -/
theorem execute_tool_error_payloads_witness :
    lookupTool [("demo", demo_failing_tool)] "demo" = some demo_failing_tool ∧
    execute_single_tool [("demo", demo_failing_tool)] "demo" [] =
      jsonErrorPayload ("运行时错误: 工具 '" ++ "demo" ++ "' 执行异常: " ++ "boom") :=
  ⟨rfl, (execute_tool_error_payloads [("demo", demo_failing_tool)] "demo" demo_failing_tool [] rfl).2
    "boom" rfl⟩

/-- C9: a `query_macro_data("CPI")` call whose external fetch succeeds with a
non-empty table returns a payload whose `indicator` field equals `"CPI"` and
whose `latest_data_points` list has length at most 5 (`df.head(5)`). -/
theorem query_macro_data_cpi (w : World) (rows : List MacroRow)
    (hok : w.cpi_rows = .ok rows) (hne : rows ≠ []) :
    ∃ (recs : List PyObj) (fmt : String),
      query_macro_data w (.pstr "CPI") =
        json_dumps (.pdict [("indicator", .pstr "CPI"),
          ("latest_data_points", .plist recs), ("formatted_output", .pstr fmt)]) ∧
      recs.length ≤ 5 := by
  refine ⟨(rows.take 5).map (fun r => PyObj.pdict [("年份", r.year), ("CPI_Index", r.value)]),
    "最近的 CPI 宏观数据显示：\n" ++ String.intercalate "\n"
      ((rows.take 5).map (fun r =>
        "年份 " ++ pyToStr r.year ++ ": 居民消费价格指数(上年=100) 为 " ++ pyToStr r.value)), ?_, ?_⟩
  · rw [query_macro_data, hok]
    have hemp : rows.isEmpty = false := by
      cases rows with
      | nil => exact absurd rfl hne
      | cons a t => rfl
    simp [hemp]
  · rw [List.length_map, List.length_take]
    omega

/-- Witness for C9 at a concrete world with one CPI row. -/
theorem query_macro_data_cpi_witness :
    (World.mk (.ok [⟨.pint 2024, .pint 102⟩]) (.ok []) (fun _ => "") (fun _ => "")).cpi_rows =
      .ok [⟨.pint 2024, .pint 102⟩] ∧
    ∃ (recs : List PyObj) (fmt : String),
      query_macro_data (World.mk (.ok [⟨.pint 2024, .pint 102⟩]) (.ok []) (fun _ => "") (fun _ => ""))
          (.pstr "CPI") =
        json_dumps (.pdict [("indicator", .pstr "CPI"),
          ("latest_data_points", .plist recs), ("formatted_output", .pstr fmt)]) ∧
      recs.length ≤ 5 :=
  ⟨rfl, query_macro_data_cpi _ [⟨.pint 2024, .pint 102⟩] rfl (by simp)⟩

/-! ### Single-agent orchestration loop (`chat_with_context`, `agent_app.py`)

The Ollama chat endpoint is an external collaborator; it is modelled as an
oracle `Nat → Msg` giving the response message of the `(i+1)`-th
`ollama.chat` call of the turn.  The loop body: append the response; if it
carries tool calls, normalize them to plain dicts, persist the assistant
record, execute every invocation in order via `execute_single_tool`
appending one `tool` message per invocation, increment the iteration counter
and loop; otherwise print and persist the stripped (or fallback) text and
return.  After `MAX_ITERATIONS` tool rounds the loop exits with the
iteration-limit notice and persists nothing further. -/

/-- A raw tool-call object as the runtime client may deliver it: a plain
dict, a Pydantic v2 object (with `model_dump`), an older Pydantic object
(with `.dict()`), or an object exposing only `function.name` /
`function.arguments`. -/
inductive RawToolCall : Type where
  | dict_form (fname : String) (fargs : Args) : RawToolCall
  | model_dump_form (fname : String) (fargs : Args) : RawToolCall
  | dict_method_form (fname : String) (fargs : Args) : RawToolCall
  | attr_form (fname : String) (fargs : Args) : RawToolCall

/-- The normalized plain-dict record of one tool call. -/
structure ToolCallRec : Type where
  fname : String
  fargs : Args

/-- Normalization of one raw tool call (the conversion loop of
`chat_with_context`): every representation collapses to its
`{name, arguments}` content. -/
def normalize_tool_call : RawToolCall → ToolCallRec
  | .dict_form n a => ⟨n, a⟩
  | .model_dump_form n a => ⟨n, a⟩
  | .dict_method_form n a => ⟨n, a⟩
  | .attr_form n a => ⟨n, a⟩

/-- Serializable dict of a normalized tool call, as persisted with the
assistant's turn. -/
def toolCallPy (d : ToolCallRec) : PyObj :=
  .pdict [("function", .pdict [("name", .pstr d.fname), ("arguments", .pdict d.fargs)]),
    ("type", .pstr "function")]

/-- A chat message: role, content, and the optional tool-call list of a
model response. -/
structure Msg : Type where
  role : String
  content : String
  tool_calls : Option (List RawToolCall) := none

/-- Truthiness of `response_message.get('tool_calls')`: the key is present
and holds a non-empty list. -/
def hasToolCalls (m : Msg) : Bool :=
  match m.tool_calls with
  | some (_ :: _) => true
  | _ => false

/-- The loop bound `MAX_ITERATIONS` of `chat_with_context`. -/
def MAX_ITERATIONS : Nat := 5

/-- Fallback text substituted when the model's final response is empty. -/
def emptyFallback : String := "任务已完成，但我没有更多内容要补充。"

/-- Leading text of the tool-calling system prompt (`SYSTEM_PROMPT`); the
rest of the template — the embedded tool schema and few-shot examples — is
prompt engineering none of the verified properties depends on. -/
def SYSTEM_PROMPT : String :=
  "你是一个专业的金融数据分析智能体 (Agent)。你的核心职责是准确调用工具获取数据并进行分析。"

/-- Whitespace characters stripped by Python's `str.strip()` (the ASCII
ones; the tools' payloads contain no exotic Unicode whitespace). -/
def isPyWs (c : Char) : Bool :=
  c == ' ' || c == '\t' || c == '\n' || c == '\r' || c == Char.ofNat 11 || c == Char.ofNat 12

/-- Model of Python `str.strip()`: drop leading and trailing whitespace. -/
def pyStrip (s : String) : String :=
  String.mk (((s.data.dropWhile isPyWs).reverse.dropWhile isPyWs).reverse)

/-- Observable outcome of one `chat_with_context` turn: `finalText` is the
final answer printed and persisted in the no-tool-calls branch (`none` when
the loop exits by the iteration limit, where only the notice is printed and
nothing more is persisted), `modelCalls` counts `ollama.chat` requests,
`messages` is the in-memory list, and `saved` the `save_message` log in
order. -/
structure ChatResult : Type where
  finalText : Option String
  modelCalls : Nat
  messages : List Msg
  saved : List (String × String)

/-- The `tool`-role message appended for one executed invocation. -/
def toolResultMsg (w : World) (d : ToolCallRec) : Msg :=
  ⟨"tool", execute_single_tool (AVAILABLE_TOOLS w) d.fname d.fargs, none⟩

/-- The `while iteration < MAX_ITERATIONS` loop of `chat_with_context`;
`fuel = MAX_ITERATIONS - iteration` and `calls` counts model calls made so
far (`oracle calls` is the next response). -/
def chatLoop (oracle : Nat → Msg) (w : World) :
    Nat → List Msg → List (String × String) → Nat → ChatResult
  | 0, msgs, saved, calls => ⟨none, calls, msgs, saved⟩
  | fuel + 1, msgs, saved, calls =>
    let resp := oracle calls
    let msgs1 := msgs ++ [resp]
    match resp.tool_calls with
    | some (t :: ts) =>
      let serial := (t :: ts).map normalize_tool_call
      chatLoop oracle w fuel
        (msgs1 ++ serial.map (toolResultMsg w))
        ((saved ++ [("assistant", json_dumps (.plist (serial.map toolCallPy)))]) ++
          serial.map (fun d => ("tool", execute_single_tool (AVAILABLE_TOOLS w) d.fname d.fargs)))
        (calls + 1)
    | _ =>
      let fc0 := pyStrip resp.content
      let fc := if fc0 = "" then emptyFallback else fc0
      ⟨some fc, calls + 1, msgs1, saved ++ [("assistant", fc)]⟩

/-- Model of `chat_with_context(user_input)`: prefix the system prompt,
append the loaded history and the new user message, persist the user
message, then run the loop from iteration 0. -/
def chat_with_context (oracle : Nat → Msg) (w : World) (history : List Msg)
    (user_input : String) : ChatResult :=
  chatLoop oracle w MAX_ITERATIONS
    (⟨"system", SYSTEM_PROMPT, none⟩ :: (history ++ [⟨"user", user_input, none⟩]))
    [("user", user_input)] 0

/-- With tool calls on every remaining round, the loop burns all its fuel:
one model call per unit of fuel, and no final answer is produced or
persisted. -/
theorem chatLoop_exhausts (oracle : Nat → Msg) (w : World) : ∀ (fuel : Nat)
    (msgs : List Msg) (saved : List (String × String)) (calls : Nat),
    (∀ i, calls ≤ i → i < calls + fuel → hasToolCalls (oracle i) = true) →
    (chatLoop oracle w fuel msgs saved calls).finalText = none ∧
    (chatLoop oracle w fuel msgs saved calls).modelCalls = calls + fuel := by
  intro fuel
  induction fuel with
  | zero => intro msgs saved calls _; exact ⟨rfl, rfl⟩
  | succ fuel ih =>
    intro msgs saved calls h
    have htc : hasToolCalls (oracle calls) = true := h calls (le_refl _) (by omega)
    rw [hasToolCalls] at htc
    rcases hl : (oracle calls).tool_calls with _ | l
    · rw [hl] at htc; simp at htc
    · cases l with
      | nil => rw [hl] at htc; simp at htc
      | cons t ts =>
        simp only [chatLoop]
        rw [hl]
        dsimp only
        have hnext : ∀ i, calls + 1 ≤ i → i < calls + 1 + fuel → hasToolCalls (oracle i) = true :=
          fun i h1 h2 => h i (by omega) (by omega)
        constructor
        · exact (ih _ _ _ hnext).1
        · rw [(ih _ _ _ hnext).2]
          omega

/-- With tool calls on the first `j` rounds and none on round `j+1`
(`j < fuel`), the loop makes exactly `j+1` model calls and ends with the
(stripped, defaulted) text of that last response. -/
theorem chatLoop_final (oracle : Nat → Msg) (w : World) : ∀ (j fuel : Nat)
    (msgs : List Msg) (saved : List (String × String)) (calls : Nat),
    j < fuel →
    (∀ i, calls ≤ i → i < calls + j → hasToolCalls (oracle i) = true) →
    hasToolCalls (oracle (calls + j)) = false →
    (chatLoop oracle w fuel msgs saved calls).finalText =
      some (if pyStrip (oracle (calls + j)).content = "" then emptyFallback
        else pyStrip (oracle (calls + j)).content) ∧
    (chatLoop oracle w fuel msgs saved calls).modelCalls = calls + j + 1 := by
  intro j
  induction j with
  | zero =>
    intro fuel msgs saved calls hj _ hlast
    cases fuel with
    | zero => omega
    | succ fuel =>
      rw [hasToolCalls] at hlast
      simp only [Nat.add_zero] at hlast ⊢
      rcases hl : (oracle calls).tool_calls with _ | l
      · simp only [chatLoop]
        rw [hl]
        exact ⟨rfl, rfl⟩
      · cases l with
        | nil =>
          simp only [chatLoop]
          rw [hl]
          exact ⟨rfl, rfl⟩
        | cons t ts => rw [hl] at hlast; simp at hlast
  | succ j ih =>
    intro fuel msgs saved calls hj h hlast
    cases fuel with
    | zero => omega
    | succ fuel =>
      have htc : hasToolCalls (oracle calls) = true := h calls (le_refl _) (by omega)
      rw [hasToolCalls] at htc
      rcases hl : (oracle calls).tool_calls with _ | l
      · rw [hl] at htc; simp at htc
      · cases l with
        | nil => rw [hl] at htc; simp at htc
        | cons t ts =>
          simp only [chatLoop]
          rw [hl]
          dsimp only
          have hshift : calls + 1 + j = calls + (j + 1) := by omega
          have hnext : ∀ i, calls + 1 ≤ i → i < calls + 1 + j → hasToolCalls (oracle i) = true :=
            fun i h1 h2 => h i (by omega) (by omega)
          have hlast2 : hasToolCalls (oracle (calls + 1 + j)) = false := by
            rw [hshift]; exact hlast
          constructor
          · rw [(ih fuel _ _ (calls + 1) (by omega) hnext hlast2).1, hshift]
          · rw [(ih fuel _ _ (calls + 1) (by omega) hnext hlast2).2]
            omega

/-- An oracle that always answers with empty text and no tool calls. -/
def oracleEmpty : Nat → Msg := fun _ => ⟨"assistant", "", none⟩

set_option maxRecDepth 8192 in
/-- C1 counterexample: a model that returns a response with no tool
invocations and empty text on round 1 makes the loop perform exactly one
model call, but the final answer is the fixed fallback notice, not the
response's (empty) text as the claim states. -/
theorem chat_with_context_empty_final_counterexample :
    (chat_with_context oracleEmpty w0 [] "你好").modelCalls = 1 ∧
    hasToolCalls (oracleEmpty 0) = false ∧
    pyStrip (oracleEmpty 0).content = "" ∧
    (chat_with_context oracleEmpty w0 [] "你好").finalText = some emptyFallback ∧
    (chat_with_context oracleEmpty w0 [] "你好").finalText ≠ some (pyStrip (oracleEmpty 0).content) := by
  refine ⟨rfl, rfl, rfl, rfl, ?_⟩
  intro h
  rw [show (chat_with_context oracleEmpty w0 [] "你好").finalText = some emptyFallback from rfl] at h
  rw [show pyStrip (oracleEmpty 0).content = "" from rfl] at h
  simp only [Option.some_inj] at h
  exact absurd h (by decide)

/-- C1 amended: with tool invocations on every round the loop performs
exactly `MAX_ITERATIONS = 5` model calls and ends with the
iteration-exhaustion notice, persisting no synthetic final answer
(`finalText = none`); with a first tool-free response on round `k ≤ 5`
whose stripped text is non-empty, the loop performs exactly `k` model calls
and that stripped text is the final answer (when the text is empty the fixed
fallback notice replaces it, which is the amendment). -/
theorem chat_with_context_loop_bound (oracle : Nat → Msg) (w : World) (history : List Msg)
    (user_input : String) :
    ((∀ i, i < MAX_ITERATIONS → hasToolCalls (oracle i) = true) →
      (chat_with_context oracle w history user_input).finalText = none ∧
      (chat_with_context oracle w history user_input).modelCalls = MAX_ITERATIONS) ∧
    (∀ k, 1 ≤ k → k ≤ MAX_ITERATIONS →
      (∀ i, i < k - 1 → hasToolCalls (oracle i) = true) →
      hasToolCalls (oracle (k - 1)) = false →
      pyStrip (oracle (k - 1)).content ≠ "" →
      (chat_with_context oracle w history user_input).modelCalls = k ∧
      (chat_with_context oracle w history user_input).finalText =
        some (pyStrip (oracle (k - 1)).content)) := by
  constructor
  · intro h
    have := chatLoop_exhausts oracle w MAX_ITERATIONS
      (⟨"system", SYSTEM_PROMPT, none⟩ :: (history ++ [⟨"user", user_input, none⟩]))
      [("user", user_input)] 0 (fun i h1 h2 => h i (by omega))
    exact ⟨this.1, this.2⟩
  · intro k hk1 hk5 hprev hlast hne
    have hj : (0 : Nat) + (k - 1) = k - 1 := by omega
    have := chatLoop_final oracle w (k - 1) MAX_ITERATIONS
      (⟨"system", SYSTEM_PROMPT, none⟩ :: (history ++ [⟨"user", user_input, none⟩]))
      [("user", user_input)] 0 (by simp [MAX_ITERATIONS] at hk5 ⊢; omega)
      (fun i h1 h2 => hprev i (by omega)) (by rw [hj]; exact hlast)
    rw [hj] at this
    constructor
    · rw [show (chat_with_context oracle w history user_input).modelCalls =
        (chatLoop oracle w MAX_ITERATIONS
          (⟨"system", SYSTEM_PROMPT, none⟩ :: (history ++ [⟨"user", user_input, none⟩]))
          [("user", user_input)] 0).modelCalls from rfl, this.2]
      omega
    · rw [show (chat_with_context oracle w history user_input).finalText =
        (chatLoop oracle w MAX_ITERATIONS
          (⟨"system", SYSTEM_PROMPT, none⟩ :: (history ++ [⟨"user", user_input, none⟩]))
          [("user", user_input)] 0).finalText from rfl, this.1, if_neg hne]

/-- A demonstration tool invocation and oracles used in concrete loop
evaluations. -/
def demoCall : RawToolCall := .attr_form "query_macro_data" [("indicator", .pstr "CPI")]

/-- Oracle: one tool round, then a final text answer. -/
def oracleOneTool : Nat → Msg := fun i =>
  if i = 0 then ⟨"assistant", "", some [demoCall]⟩ else ⟨"assistant", " 成交量分析完成。 ", none⟩

set_option maxRecDepth 8192 in
/-- Witness for the amended C1 at `k = 2`: one tool round, then a non-empty
final answer; the loop makes exactly two model calls and returns the
stripped text. -/
theorem chat_with_context_loop_bound_witness :
    (1 ≤ 2 ∧ 2 ≤ MAX_ITERATIONS ∧ hasToolCalls (oracleOneTool 0) = true ∧
      hasToolCalls (oracleOneTool 1) = false ∧ pyStrip (oracleOneTool 1).content ≠ "") ∧
    (chat_with_context oracleOneTool w0 [] "查询CPI").modelCalls = 2 ∧
    (chat_with_context oracleOneTool w0 [] "查询CPI").finalText =
      some (pyStrip (oracleOneTool 1).content) := by
  refine ⟨⟨by omega, by decide, rfl, rfl, by decide⟩, ?_⟩
  exact (chat_with_context_loop_bound oracleOneTool w0 [] "查询CPI").2 2 (by omega) (by decide)
    (by intro i hi; interval_cases i; rfl) rfl (by decide)

/-- C3: when the model's response of a round carries tool invocations, the
round appends the assistant response followed by exactly one `tool`-role
result message per invocation, in the model's order, and then continues the
loop — every invocation in the batch is executed via `execute_single_tool`
(whose result is an error payload rather than an abort on failure), so no
invocation aborts the remaining ones. -/
theorem chatLoop_tool_batch (oracle : Nat → Msg) (w : World) (fuel : Nat) (msgs : List Msg)
    (saved : List (String × String)) (calls : Nat) (t : RawToolCall) (ts : List RawToolCall)
    (h : (oracle calls).tool_calls = some (t :: ts)) :
    chatLoop oracle w (fuel + 1) msgs saved calls =
      chatLoop oracle w fuel
        ((msgs ++ [oracle calls]) ++ ((t :: ts).map normalize_tool_call).map (toolResultMsg w))
        ((saved ++ [("assistant",
            json_dumps (.plist (((t :: ts).map normalize_tool_call).map toolCallPy)))]) ++
          ((t :: ts).map normalize_tool_call).map
            (fun d => ("tool", execute_single_tool (AVAILABLE_TOOLS w) d.fname d.fargs)))
        (calls + 1) ∧
    (((t :: ts).map normalize_tool_call).map (toolResultMsg w)).length = (t :: ts).length ∧
    ((t :: ts).map normalize_tool_call).map (toolResultMsg w) =
      (t :: ts).map (fun tc => ⟨"tool",
        execute_single_tool (AVAILABLE_TOOLS w) (normalize_tool_call tc).fname
          (normalize_tool_call tc).fargs, none⟩) := by
  refine ⟨?_, by simp, by simp [toolResultMsg]⟩
  simp only [chatLoop]
  rw [h]

/-- Witness for C3: a concrete one-invocation batch appends exactly the
assistant message and one tool result, in order. -/
theorem chatLoop_tool_batch_witness :
    (oracleOneTool 0).tool_calls = some [demoCall] ∧
    chatLoop oracleOneTool w0 (4 + 1) [] [] 0 =
      chatLoop oracleOneTool w0 4
        (([] ++ [oracleOneTool 0]) ++ ([demoCall].map normalize_tool_call).map (toolResultMsg w0))
        (([] ++ [("assistant",
            json_dumps (.plist (([demoCall].map normalize_tool_call).map toolCallPy)))]) ++
          ([demoCall].map normalize_tool_call).map
            (fun d => ("tool", execute_single_tool (AVAILABLE_TOOLS w0) d.fname d.fargs)))
        (0 + 1) :=
  ⟨rfl, (chatLoop_tool_batch oracleOneTool w0 4 [] [] 0 demoCall [] rfl).1⟩

/-! ### Multi-agent pipeline (`multi-Agent.py`)

`run(user_input)` creates a fresh task context and saves it, then builds
`DataFetchAgent("DataFetchAgent", DATA_FETCH_PROMPT, store)` (and the other
two agents the same way) — but the inherited `Agent.__init__(self, name,
store)` accepts only two arguments besides `self`, so the constructor call
raises `TypeError` before any agent runs.  Even if construction succeeded,
each `run` method first calls `self.bind_logger(...)` (the base class only
defines `_bind_logger`) and reads `self.system_prompt` (never assigned),
each an `AttributeError`.  The faithful model therefore ends in an error
right after the initial `store.save`; the intended behaviour (those slips
repaired) is modelled separately to show the claimed invariant is the
evident intent of the code. -/

/-- Exception raised at the `agents = [...]` construction in `run`. -/
def agent_init_type_error : String :=
  "TypeError: __init__() takes 3 positional arguments but 4 were given"

/-- The fresh task context `run` builds before anything else. -/
def initial_ctx (task_id user_input : String) : PyObj :=
  .pdict [("task_id", .pstr task_id), ("user_input", .pstr user_input),
    ("model", .pstr "qwen2.5:14b"), ("messages", .plist []), ("final_report", .pnone)]

/-- Faithful model of `run(user_input)` (`multi-Agent.py` lines 319–344):
the context is created and saved, then agent construction raises; the
result pairs the store contents at the crash with the raised exception. -/
def multiAgentRun (task_id user_input : String) : Table × Except String Unit :=
  (ContextStore.save [] task_id (initial_ctx task_id user_input),
   .error agent_init_type_error)

/-- C7: evaluating the pipeline entry point at a concrete input shows the
run raising `TypeError` at agent construction, before any of the three
agents executes, with only the initial context checkpoint persisted. -/
theorem multi_agent_run_crashes :
    (multiAgentRun "t1" "分析600519的走势").2 = .error agent_init_type_error ∧
    (multiAgentRun "t1" "分析600519的走势").1 =
      [("t1", json_dumps (initial_ctx "t1" "分析600519的走势"))] :=
  ⟨rfl, rfl⟩

/-- Task context record of the intended pipeline. -/
structure PipeCtx : Type where
  task_id : String
  user_input : String
  model : String
  messages : List Msg
  final_report : Option String

/-- Intended `DataFetchAgent.run` / `DataProcessAgent.run` body (constructor
and attribute slips repaired): one model call appending the response, then —
when tool calls are present — one `tool` message per invocation in order. -/
def fetchOrProcessRun (resp : Msg) (w : World) (ctx : PipeCtx) : PipeCtx :=
  match resp.tool_calls with
  | some (t :: ts) =>
    { ctx with messages := (ctx.messages ++ [resp]) ++ (t :: ts).map (fun tc =>
        ⟨"tool", execute_single_tool (AVAILABLE_TOOLS w)
          (normalize_tool_call tc).fname (normalize_tool_call tc).fargs, none⟩) }
  | _ => { ctx with messages := ctx.messages ++ [resp] }

/-- Intended `ReportAgent.run` body: a single tool-free model call whose
text becomes the final report. -/
def reportRun (resp : Msg) (ctx : PipeCtx) : PipeCtx :=
  { ctx with final_report := some resp.content }

/-- The intended pipeline invariant behind C7: each data agent only appends
to `messages` and leaves `final_report` untouched, and only the report
agent's turn sets `final_report`, to the report text. -/
theorem intended_pipeline_monotone (r1 r2 r3 : Msg) (w : World) (ctx : PipeCtx)
    (h0 : ctx.final_report = none) :
    (∃ a, (fetchOrProcessRun r1 w ctx).messages = ctx.messages ++ a) ∧
    (fetchOrProcessRun r1 w ctx).final_report = none ∧
    (∃ b, (fetchOrProcessRun r2 w (fetchOrProcessRun r1 w ctx)).messages =
      (fetchOrProcessRun r1 w ctx).messages ++ b) ∧
    (fetchOrProcessRun r2 w (fetchOrProcessRun r1 w ctx)).final_report = none ∧
    (reportRun r3 (fetchOrProcessRun r2 w (fetchOrProcessRun r1 w ctx))).messages =
      (fetchOrProcessRun r2 w (fetchOrProcessRun r1 w ctx)).messages ∧
    (reportRun r3 (fetchOrProcessRun r2 w (fetchOrProcessRun r1 w ctx))).final_report =
      some r3.content := by
  have hmsg : ∀ (r : Msg) (c : PipeCtx), ∃ a, (fetchOrProcessRun r w c).messages = c.messages ++ a := by
    intro r c
    rw [fetchOrProcessRun]
    rcases r.tool_calls with _ | l
    · exact ⟨[r], rfl⟩
    · cases l with
      | nil => exact ⟨[r], rfl⟩
      | cons t ts =>
        exact ⟨[r] ++ (t :: ts).map (fun tc =>
          ⟨"tool", execute_single_tool (AVAILABLE_TOOLS w)
            (normalize_tool_call tc).fname (normalize_tool_call tc).fargs, none⟩), by simp⟩
  have hrep : ∀ (r : Msg) (c : PipeCtx), (fetchOrProcessRun r w c).final_report = c.final_report := by
    intro r c
    rw [fetchOrProcessRun]
    rcases r.tool_calls with _ | l
    · rfl
    · cases l with
      | nil => rfl
      | cons t ts => rfl
  refine ⟨hmsg r1 ctx, ?_, hmsg r2 _, ?_, rfl, rfl⟩
  · rw [hrep, h0]
  · rw [hrep, hrep, h0]

/-! ### Conversation persistence (`save_message` / `load_context`, `agent_app.py`)

`save_message(role, content)` appends a row to the `conversation` table; the
`timestamp` column defaults to SQLite's `CURRENT_TIMESTAMP`, a
second-resolution `YYYY-MM-DD HH:MM:SS` string supplied here by an explicit
clock argument.  `load_context` reconstructs history with
`SELECT role, content FROM conversation ORDER BY timestamp ASC`: SQL leaves
the relative order of rows with equal timestamps unspecified, so the result
set is modelled as any permutation of the stored rows that is nondecreasing
in the timestamp, under SQLite's byte-wise text ordering (code-point
lexicographic on these ASCII timestamps). -/

/-- Lexicographic strict order on character lists by code point (SQLite's
BINARY text ordering on ASCII strings). -/
def charListLtb : List Char → List Char → Bool
  | [], [] => false
  | [], _ :: _ => true
  | _ :: _, [] => false
  | a :: as, b :: bs =>
    if a.toNat < b.toNat then true
    else if b.toNat < a.toNat then false
    else charListLtb as bs

/-- Strict timestamp order. -/
def tsLt (a b : String) : Prop := charListLtb a.data b.data = true

/-- Reflexive timestamp order. -/
def tsLe (a b : String) : Prop := tsLt a b ∨ a = b

instance (a b : String) : Decidable (tsLt a b) := by unfold tsLt; infer_instance

instance (a b : String) : Decidable (tsLe a b) := by unfold tsLe; infer_instance

/-- The strict lexicographic order is irreflexive. -/
theorem charListLtb_irrefl : ∀ l : List Char, charListLtb l l = false := by
  intro l
  induction l with
  | nil => rfl
  | cons a as ih => simp [charListLtb, ih]

/-- The strict lexicographic order is asymmetric. -/
theorem charListLtb_asymm : ∀ (l1 l2 : List Char),
    charListLtb l1 l2 = true → charListLtb l2 l1 = true → False := by
  intro l1
  induction l1 with
  | nil =>
    intro l2 h1 h2
    cases l2 with
    | nil => simp [charListLtb] at h1
    | cons b bs => simp [charListLtb] at h2
  | cons a as ih =>
    intro l2 h1 h2
    cases l2 with
    | nil => simp [charListLtb] at h1
    | cons b bs =>
      by_cases hab : a.toNat < b.toNat
      · have hba : ¬ b.toNat < a.toNat := by omega
        simp [charListLtb, hab, hba] at h2
      · by_cases hba : b.toNat < a.toNat
        · simp [charListLtb, hab, hba] at h1
        · simp [charListLtb, hab, hba] at h1 h2
          exact ih bs h1 h2

/-- One row of the `conversation` table (the autoincrement id is the list
position). -/
structure ConvRow : Type where
  role : String
  content : String
  ts : String
deriving DecidableEq

/-- `save_message(role, content)` executed when the database clock reads
`ts`. -/
def save_message (rows : List ConvRow) (role content ts : String) : List ConvRow :=
  rows ++ [⟨role, content, ts⟩]

/-- Replay a sequence of `save_message` calls (each triple is role, content
and the clock value at insertion). -/
def applyMessageSaves (rows : List ConvRow) (saves : List (String × String × String)) :
    List ConvRow :=
  saves.foldl (fun acc sv => save_message acc sv.1 sv.2.1 sv.2.2) rows

/-- The possible result sequences of `ORDER BY timestamp ASC` over the
stored rows: any permutation sorted by timestamp. -/
def load_context_output (rows out : List ConvRow) : Prop :=
  out.Perm rows ∧ out.Pairwise (fun a b => tsLe a.ts b.ts)

/-- Projection of loaded rows to the `{'role': ..., 'content': ...}` records
`load_context` returns. -/
def loadProj (out : List ConvRow) : List (String × String) :=
  out.map (fun r => (r.role, r.content))

/-- Two messages saved within the same second. -/
def tiedSaves : List (String × String × String) :=
  [("user", "你好", "2024-01-01 10:00:00"), ("assistant", "您好！", "2024-01-01 10:00:00")]

/-- A valid query answer for `tiedSaves` that reverses the insertion
order. -/
def tiedOut : List ConvRow :=
  [⟨"assistant", "您好！", "2024-01-01 10:00:00"⟩, ⟨"user", "你好", "2024-01-01 10:00:00"⟩]

set_option maxRecDepth 8192 in
/-- C8 counterexample: with two messages saved in the same second (equal
`CURRENT_TIMESTAMP` strings), the reversed sequence is also a legal answer
of `ORDER BY timestamp ASC`, and its `(role, content)` projection differs
from insertion order — reconstruction is keyed by the second-resolution
timestamp, not by insertion order alone. -/
theorem load_context_tie_counterexample :
    load_context_output (applyMessageSaves [] tiedSaves) tiedOut ∧
    loadProj tiedOut ≠ loadProj (applyMessageSaves [] tiedSaves) := by
  exact ⟨⟨by decide, by decide⟩, by decide⟩

/-- C8 amended: whenever the saved timestamps are strictly increasing along
insertion order (no two saves within the same clock second), every legal
answer of the timestamp-ordered query projects to exactly the `(role,
content)` sequence in insertion order, with no duplication and no loss. -/
theorem load_context_insertion_order (saves : List (String × String × String))
    (out : List ConvRow)
    (hstrict : (applyMessageSaves [] saves).Pairwise (fun a b => tsLt a.ts b.ts))
    (hout : load_context_output (applyMessageSaves [] saves) out) :
    loadProj out = loadProj (applyMessageSaves [] saves) := by
  obtain ⟨hperm, hsorted⟩ := hout
  have htsne : ∀ a b : ConvRow, tsLt a.ts b.ts → a.ts ≠ b.ts := by
    intro a b hlt he
    rw [tsLt, he] at hlt
    rw [charListLtb_irrefl] at hlt
    exact absurd hlt (by simp)
  have hnodup : ((applyMessageSaves [] saves).map ConvRow.ts).Nodup :=
    (List.pairwise_map).2 (hstrict.imp (fun h => htsne _ _ h))
  have hnodup2 : (out.map ConvRow.ts).Nodup := ((hperm.map ConvRow.ts).nodup_iff).2 hnodup
  have hne : out.Pairwise (fun a b => a.ts ≠ b.ts) := (List.pairwise_map).1 hnodup2
  have hlt : out.Pairwise (fun a b => tsLt a.ts b.ts) :=
    (hsorted.and hne).imp (fun h => h.1.resolve_right h.2)
  haveI : IsAntisymm ConvRow (fun a b => tsLt a.ts b.ts) :=
    ⟨fun a b h1 h2 => absurd (charListLtb_asymm _ _ h1 h2) (fun h => h)⟩
  rw [List.eq_of_perm_of_sorted hperm hlt hstrict]

/-- Two messages saved in distinct seconds. -/
def separatedSaves : List (String × String × String) :=
  [("user", "你好", "2024-01-01 10:00:00"), ("assistant", "您好！", "2024-01-01 10:00:01")]

set_option maxRecDepth 8192 in
/-- Witness for the amended C8: with strictly increasing timestamps the
insertion-order sequence itself is the unique legal answer. -/
theorem load_context_insertion_order_witness :
    ((applyMessageSaves [] separatedSaves).Pairwise (fun a b => tsLt a.ts b.ts) ∧
      load_context_output (applyMessageSaves [] separatedSaves)
        (applyMessageSaves [] separatedSaves)) ∧
    loadProj (applyMessageSaves [] separatedSaves) =
      loadProj (applyMessageSaves [] separatedSaves) :=
  ⟨⟨by decide, by decide, by decide⟩,
    load_context_insertion_order separatedSaves (applyMessageSaves [] separatedSaves)
      (by decide) ⟨by decide, by decide⟩⟩
